import Mathlib

/-!
Verification of the Media Source Resolution & Retrieval Engine
(`internal/platforms/ytdlp.go` and the related platform sources) and of the
Telegram message trimming helper (`internal/utils/edit_or_reply.go`).

The Go code is shallowly embedded: pure functions become Lean functions over
executable data; the external resolver subprocess, the HTTP reachability
probe, the `ffprobe` capability and the filesystem are abstracted into an
explicit environment record (`Env`) and a filesystem state (`FS`), and each
operation additionally returns the ordered list of external events (`Ev`) it
performed, so that ordering and "never invokes X" properties can be stated.

Go `string` values are embedded as Lean `String`s, but every Go string
operation used by the sources (`strings.TrimSpace`, `strings.Split`,
`strings.HasPrefix`) is given its own structural, kernel-computable
definition over the underlying character list, because the corresponding
built-in `String` operations do not reduce inside the kernel.  The byte-level
helper `trimTelegramText` is embedded over `List UInt8`, matching Go's
byte-slice semantics of `len` and `s[:n]`.
-/

namespace Yukki

/-! ## Go string primitives -/

/-- Characters treated as whitespace by Go's `strings.TrimSpace`
(`unicode.IsSpace` restricted to the ASCII range used here). -/
def goIsSpace (c : Char) : Bool :=
  c = ' ' || c = '\t' || c = '\n' || c = '\r' || c = '\x0b' || c = '\x0c'

/-- Character-list version of Go's `strings.TrimSpace`. -/
def goTrimChars (l : List Char) : List Char :=
  ((l.dropWhile goIsSpace).reverse.dropWhile goIsSpace).reverse

/-- Go's `strings.TrimSpace`. -/
def goTrimSpace (s : String) : String :=
  ⟨goTrimChars s.data⟩

/-- Character-list version of Go's `strings.HasPrefix`. -/
def startsWithChars : List Char → List Char → Bool
  | _, [] => true
  | [], _ :: _ => false
  | c :: cs, p :: ps => c = p && startsWithChars cs ps

/-- Go's `strings.HasPrefix s p`. -/
def goStartsWith (s p : String) : Bool :=
  startsWithChars s.data p.data

/-- Character-list version of Go's `strings.Split (· , "\n")`. -/
def splitLinesChars : List Char → List (List Char)
  | [] => [[]]
  | c :: cs =>
    if c = '\n' then [] :: splitLinesChars cs
    else
      match splitLinesChars cs with
      | [] => [[c]]
      | l :: ls => (c :: l) :: ls

/-- Go's `strings.Split (·, "\n")`. -/
def goSplitLines (s : String) : List String :=
  (splitLinesChars s.data).map (fun l => ⟨l⟩)

/-! ## Reference validation (`IsValid`) -/

/-- The fields of Go's `url.URL` that `IsValid` inspects. -/
structure GoURL where
  Scheme : String
  Host : String
  Path : String
deriving DecidableEq

/-- ASCII letter test, as in Go's scheme scanner. -/
def isAlphaGo (c : Char) : Bool :=
  ('a' ≤ c && c ≤ 'z') || ('A' ≤ c && c ≤ 'Z')

/-- ASCII digit test, as in Go's scheme scanner. -/
def isDigitGo (c : Char) : Bool :=
  '0' ≤ c && c ≤ '9'

/-- Modelled from the spec: scheme extraction of Go's `net/url.Parse`
(standard-library collaborator, not part of this repository's sources;
§4.1 says only "parses as a URI").  A scheme is ALPHA followed by
ALPHA / DIGIT / `+` / `-` / `.` up to a `:`; a `:` at position 0 is a parse
error; any other leading shape means "no scheme" and the whole input is the
remainder.  Returns `(scheme, remainder)` or `none` on error. -/
def getSchemeAux (full : List Char) : List Char → Nat → Option (String × String)
  | [], _ => some ("", ⟨full⟩)
  | c :: rest, i =>
    if isAlphaGo c then getSchemeAux full rest (i + 1)
    else if isDigitGo c || c = '+' || c = '-' || c = '.' then
      if i = 0 then some ("", ⟨full⟩) else getSchemeAux full rest (i + 1)
    else if c = ':' then
      if i = 0 then none
      else some (⟨full.take i⟩, ⟨full.drop (i + 1)⟩)
    else some ("", ⟨full⟩)

/-- Scheme extraction entry point. -/
def getScheme (raw : String) : Option (String × String) :=
  getSchemeAux raw.data raw.data 0

/-- The portion of `l` before the first occurrence of `sep`
(all of `l` when absent). -/
def cutBefore (l : List Char) (sep : Char) : List Char :=
  l.takeWhile (fun c => c ≠ sep)

/-- The suffix after the last `@` (the whole list when there is none):
Go strips user-info from the authority before taking the host. -/
def afterLastAt (l : List Char) : List Char :=
  (l.reverse.takeWhile (fun c => c ≠ '@')).reverse

/-- Modelled from the spec: Go's `net/url.Parse` (standard-library
collaborator outside this repository).  Keeps the fields `IsValid` reads:
after scheme extraction the fragment (`#…`) and query (`?…`) are dropped;
when the remainder begins with `//` the authority runs to the next `/`, the
host is the authority with any user-info before `@` removed (ports stay in
`Host`, as in Go), and the rest is the path; otherwise the host is empty. -/
def urlParse (raw : String) : Option GoURL :=
  match getScheme raw with
  | none => none
  | some (scheme, rest) =>
    let rest1 := cutBefore (cutBefore rest.data '#') '?'
    if startsWithChars rest1 ['/', '/'] then
      let after := rest1.drop 2
      let authority := after.takeWhile (fun c => c ≠ '/')
      some { Scheme := scheme, Host := ⟨afterLastAt authority⟩,
             Path := ⟨after.dropWhile (fun c => c ≠ '/')⟩ }
    else
      some { Scheme := scheme, Host := "", Path := ⟨rest1⟩ }

/-- `IsValid` (ytdlp.go): trim, parse, and require a scheme and a host.
A pure, total Boolean function by construction. -/
def IsValid (query : String) : Bool :=
  match urlParse (goTrimSpace query) with
  | none => false
  | some u => !(u.Scheme == "") && !(u.Host == "")

/-! ## Data model -/

/-- Platform identifier tag (`state.PlatformName`). -/
abbrev PlatformName := String

/-- `const PlatformYtDlp state.PlatformName = "YtDlp"`. -/
def PlatformYtDlp : PlatformName := "YtDlp"

/-- The `Track` entity.  Modelled from the spec: the `state.Track` record of
§3 is declared in `internal/core/models`, outside the provided source files;
its fields are exactly those populated by `infoToTrack` and read by the
platform code: `ID`, `Title`, `Duration` (seconds, integer), `Artwork`,
`URL`, `Source`, `Video`, `IsLive`. -/
structure Track where
  ID : String
  Title : String
  Duration : Int
  Artwork : String
  URL : String
  Source : PlatformName
  Video : Bool
  IsLive : Bool
deriving DecidableEq

/-- `cacheKey` (ytdlp.go): the track ID suffixed with the media kind. -/
def cacheKey (track : Track) : String :=
  if track.Video then track.ID ++ "_video" else track.ID ++ "_audio"

/-! ## Metadata extraction and track mapping -/

/-- One entry of the `Formats` list of `ytdlpInfo` (anonymous struct in the
source: `url`, `format_note`, `ext`). -/
structure YtdlpFormat where
  URL : String
  Format : String
  Ext : String
deriving DecidableEq

/-- The `ytdlpInfo` metadata descriptor: the resolver's JSON output shape.
Recursive because `Entries` holds child descriptors for playlists.  The
`float64` duration is embedded as the exact rational value the JSON number
denotes. -/
inductive YtdlpInfo : Type where
  | mk (ID : String) (Title : String) (Duration : ℚ) (Thumbnail : String)
      (URL : String) (OriginalURL : String) (Uploader : String)
      (Description : String) (IsLive : Bool) (WasLive : Bool)
      (Entries : List YtdlpInfo) (Formats : List YtdlpFormat) : YtdlpInfo

def YtdlpInfo.ID : YtdlpInfo → String
  | .mk x _ _ _ _ _ _ _ _ _ _ _ => x

def YtdlpInfo.Title : YtdlpInfo → String
  | .mk _ x _ _ _ _ _ _ _ _ _ _ => x

def YtdlpInfo.Duration : YtdlpInfo → ℚ
  | .mk _ _ x _ _ _ _ _ _ _ _ _ => x

def YtdlpInfo.Thumbnail : YtdlpInfo → String
  | .mk _ _ _ x _ _ _ _ _ _ _ _ => x

def YtdlpInfo.URL : YtdlpInfo → String
  | .mk _ _ _ _ x _ _ _ _ _ _ _ => x

def YtdlpInfo.OriginalURL : YtdlpInfo → String
  | .mk _ _ _ _ _ x _ _ _ _ _ _ => x

def YtdlpInfo.Uploader : YtdlpInfo → String
  | .mk _ _ _ _ _ _ x _ _ _ _ _ => x

def YtdlpInfo.Description : YtdlpInfo → String
  | .mk _ _ _ _ _ _ _ x _ _ _ _ => x

def YtdlpInfo.IsLive : YtdlpInfo → Bool
  | .mk _ _ _ _ _ _ _ _ x _ _ _ => x

def YtdlpInfo.WasLive : YtdlpInfo → Bool
  | .mk _ _ _ _ _ _ _ _ _ x _ _ => x

def YtdlpInfo.Entries : YtdlpInfo → List YtdlpInfo
  | .mk _ _ _ _ _ _ _ _ _ _ x _ => x

def YtdlpInfo.Formats : YtdlpInfo → List YtdlpFormat
  | .mk _ _ _ _ _ _ _ _ _ _ _ x => x

/-- Go's `int(f)` conversion of a `float64`, over the exact rational value:
truncation toward zero. -/
def goTrunc (q : ℚ) : Int :=
  Int.tdiv q.num (q.den : Int)

/-- Outcome of one metadata-mode resolver invocation (`extractMetadata`'s
subprocess plus JSON decoding): `none` collapses a non-zero exit and a JSON
parse failure, `some info` is the decoded descriptor.  Cookie attachment and
argument construction have no observable effect on the decoded value and are
not modelled. -/
structure MetaEnv where
  metaOut : Option YtdlpInfo

/-- Error kind of `GetTracks` (`fmt.Errorf("failed to extract metadata: %w")`). -/
inductive MetaErr where
  | extractionFailed
deriving DecidableEq

/-- `extractMetadata` (part_001): runs the resolver in JSON mode and decodes
its standard output; both steps are represented by the environment's
recorded outcome. -/
def extractMetadata (env : MetaEnv) (urlStr : String) : Option YtdlpInfo :=
  env.metaOut

/-- `infoToTrack` (part_001): prefers `original_url` over `webpage_url` when
non-empty, truncates the floating-point duration, and copies the live flag. -/
def infoToTrack (info : YtdlpInfo) (video : Bool) : Track :=
  let url := if info.OriginalURL ≠ "" then info.OriginalURL else info.URL
  { ID := info.ID
    Title := info.Title
    Duration := goTrunc info.Duration
    Artwork := info.Thumbnail
    URL := url
    Source := PlatformYtDlp
    Video := video
    IsLive := info.IsLive }

/-- `GetTracks` (part_001): a live descriptor yields a single live track;
a playlist descriptor yields one track per entry (live entries included);
otherwise the single descriptor yields one track. -/
def GetTracks (env : MetaEnv) (query : String) (video : Bool) :
    Except MetaErr (List Track) :=
  match extractMetadata env query with
  | none => Except.error MetaErr.extractionFailed
  | some info =>
    if info.IsLive then
      Except.ok [infoToTrack info video]
    else if 0 < info.Entries.length then
      Except.ok (info.Entries.map (fun entry => infoToTrack entry video))
    else
      Except.ok [infoToTrack info video]

/-! ## Retrieval orchestration

The external world of one `Download` invocation — the resolver subprocess in
direct-address (`-g`) and download modes, the HTTP HEAD reachability probe,
the `ffprobe` video check, and directory creation — is a record of recorded
outcomes (`Env`); the downloads directory is a list of file paths (`FS`).
Every operation also returns the ordered list of external events it
performed, so "X is attempted first" and "X is never invoked" are statable. -/

/-- External events of one retrieval request, in execution order. -/
inductive Ev where
  | resolveG
  | probe (u : String)
  | cacheLookup (key : String)
  | probeFile (path : String)
  | remove (path : String)
  | mkdirDownloads
  | downloadInvoke
  | statCheck (path : String)
deriving DecidableEq

/-- Error values of the retrieval path, one per `errors.New`/`fmt.Errorf`
site of part_001's `Download` and `getDirectStreamURL`.  Context
cancellation and a failed download subprocess differ only in message text
and are both `downloadFailed`. -/
inductive DlErr where
  | streamExtractionFailed
  | emptyStreamURL
  | noValidStream
  | liveUnsupportedForFile
  | ensureDirFailed
  | downloadFailed
  | emptyPath
  | artifactMissing (path : String)
deriving DecidableEq

/-- The downloads directory: the set of file paths present, as a list. -/
structure FS where
  files : List String
deriving DecidableEq

/-- Recorded outcomes of the external collaborators for one invocation:
`gOut` is the standard output of the `-g` resolver run (`none` = non-zero
exit); `probeStatus u` is the HTTP status of the HEAD probe of `u` (`none` =
transport error; the bounded timeout and browser-like User-Agent only
influence this outcome); `probeVideoOk` is the `ffprobe` verdict;
`ensureDirOk` is directory creation; `downloadOut` is the standard output of
the download-mode resolver run and `downloadWrites` the files that run
created on success. -/
structure Env where
  gOut : Option String
  probeStatus : String → Option Nat
  probeVideoOk : String → Bool
  ensureDirOk : Bool
  downloadOut : Option String
  downloadWrites : List String

/-- `validateStreamURL` (part_001): HEAD-probe the candidate; any status at
or above 400, or a transport error, is a failure. -/
def validateStreamURL (env : Env) (u : String) : Bool :=
  match env.probeStatus u with
  | none => false
  | some code => decide (code < 400)

/-- The candidate loop of `getDirectStreamURL` (part_001): trim each line,
skip empty lines and lines not beginning with `http`, and return the first
candidate passing `validateStreamURL`; its events are the probes issued. -/
def firstValid (env : Env) : List String → Except DlErr String × List Ev
  | [] => (Except.error DlErr.noValidStream, [])
  | u :: rest =>
    if goTrimSpace u = "" || !(goStartsWith (goTrimSpace u) "http") then
      firstValid env rest
    else if validateStreamURL env (goTrimSpace u) then
      (Except.ok (goTrimSpace u), [Ev.probe (goTrimSpace u)])
    else
      ((firstValid env rest).1, Ev.probe (goTrimSpace u) :: (firstValid env rest).2)

/-- `getDirectStreamURL` (part_001): one `-g` resolver invocation, then the
candidate loop over its output lines.  Writes nothing: it does not touch
`FS` at all. -/
def getDirectStreamURL (env : Env) (track : Track) : Except DlErr String × List Ev :=
  match env.gOut with
  | none => (Except.error DlErr.streamExtractionFailed, [Ev.resolveG])
  | some out =>
    if goTrimSpace out = "" then
      (Except.error DlErr.emptyStreamURL, [Ev.resolveG])
    else
      ((firstValid env (goSplitLines (goTrimSpace out))).1,
        Ev.resolveG :: (firstValid env (goSplitLines (goTrimSpace out))).2)

/-- The glob pattern of a cache key: files named `{key}.{ext}`. -/
def cacheGlob (key : String) : String :=
  "downloads/" ++ key ++ "."

/-- Modelled from the spec: `checkDownloadedFile` lives outside the provided
source files; §4.4 Cache Manager — globs the downloads directory for any
file whose name begins with `cacheKey.` and returns the first match, or
NotFound (`none`). -/
def checkDownloadedFile (fs : FS) (key : String) : Option String :=
  fs.files.find? (fun p => goStartsWith p (cacheGlob key))

/-- Modelled from the spec: `ensureDownloadsDir` lives outside the provided
source files; §6 — the downloads directory is created on demand and creation
can fail. -/
def ensureDownloadsDir (env : Env) : Bool :=
  env.ensureDirOk

/-- `isValidVideoFile` (ytdlp.go): the external `ffprobe` capability's
verdict on a file path. -/
def isValidVideoFile (env : Env) (path : String) : Bool :=
  env.probeVideoOk path

/-- The cache block of `Download` (ytdlp.go): on a lookup hit, a video
artifact must pass `isValidVideoFile` (an invalid one is deleted and the
flow falls through to a fresh fetch); an audio artifact is accepted
unconditionally.  Returns the hit (if any), the possibly-changed filesystem
and the events performed. -/
def cacheCheck (env : Env) (fs : FS) (track : Track) (key : String) :
    Option String × FS × List Ev :=
  match checkDownloadedFile fs key with
  | none => (none, fs, [Ev.cacheLookup key])
  | some path =>
    if track.Video then
      if isValidVideoFile env path then
        (some path, fs, [Ev.cacheLookup key, Ev.probeFile path])
      else
        (none, ⟨fs.files.erase path⟩,
          [Ev.cacheLookup key, Ev.probeFile path, Ev.remove path])
    else
      (some path, fs, [Ev.cacheLookup key])

/-- The Fetch-and-Cache Strategy: the part of `Download` (part_001) after
the live check — cache lookup (with validation and eviction), directory
creation, the download-mode resolver invocation, and the trust-but-verify
postcondition on the reported path (`strings.TrimSpace` of the subprocess
standard output; empty output and a missing file are failures). -/
def fetchAndCache (env : Env) (fs : FS) (track : Track) :
    Except DlErr String × FS × List Ev :=
  match (cacheCheck env fs track (cacheKey track)).1 with
  | some path =>
    (Except.ok path, (cacheCheck env fs track (cacheKey track)).2.1,
      (cacheCheck env fs track (cacheKey track)).2.2)
  | none =>
    if ensureDownloadsDir env = false then
      (Except.error DlErr.ensureDirFailed,
        (cacheCheck env fs track (cacheKey track)).2.1,
        (cacheCheck env fs track (cacheKey track)).2.2 ++ [Ev.mkdirDownloads])
    else
      match env.downloadOut with
      | none =>
        (Except.error DlErr.downloadFailed,
          (cacheCheck env fs track (cacheKey track)).2.1,
          (cacheCheck env fs track (cacheKey track)).2.2 ++
            [Ev.mkdirDownloads, Ev.downloadInvoke])
      | some out =>
        if goTrimSpace out = "" then
          (Except.error DlErr.emptyPath,
            ⟨(cacheCheck env fs track (cacheKey track)).2.1.files ++ env.downloadWrites⟩,
            (cacheCheck env fs track (cacheKey track)).2.2 ++
              [Ev.mkdirDownloads, Ev.downloadInvoke])
        else if ((cacheCheck env fs track (cacheKey track)).2.1.files ++
            env.downloadWrites).contains (goTrimSpace out) then
          (Except.ok (goTrimSpace out),
            ⟨(cacheCheck env fs track (cacheKey track)).2.1.files ++ env.downloadWrites⟩,
            (cacheCheck env fs track (cacheKey track)).2.2 ++
              [Ev.mkdirDownloads, Ev.downloadInvoke, Ev.statCheck (goTrimSpace out)])
        else
          (Except.error (DlErr.artifactMissing (goTrimSpace out)),
            ⟨(cacheCheck env fs track (cacheKey track)).2.1.files ++ env.downloadWrites⟩,
            (cacheCheck env fs track (cacheKey track)).2.2 ++
              [Ev.mkdirDownloads, Ev.downloadInvoke, Ev.statCheck (goTrimSpace out)])

/-- The top-level retrieval orchestration `Download` (part_001): the
direct-stream resolution first, unconditionally; then the live gate; then
the Fetch-and-Cache Strategy. -/
def Download (env : Env) (fs : FS) (track : Track) :
    Except DlErr String × FS × List Ev :=
  match (getDirectStreamURL env track).1 with
  | Except.ok streamURL => (Except.ok streamURL, fs, (getDirectStreamURL env track).2)
  | Except.error _ =>
    if track.IsLive then
      (Except.error DlErr.liveUnsupportedForFile, fs, (getDirectStreamURL env track).2)
    else
      ((fetchAndCache env fs track).1, (fetchAndCache env fs track).2.1,
        (getDirectStreamURL env track).2 ++ (fetchAndCache env fs track).2.2)

/-! ## Telegram message trimming (`internal/utils/edit_or_reply.go`)

Go `len` on a string counts bytes and `s[:n]` slices bytes, so the input is
embedded as a byte list; the fixed warning suffix is the UTF-8 encoding of
the source's string literal. -/

/-- Structural UTF-8 encoder for one character (RFC 3629 byte layout),
used to embed Go string literals as the byte sequences Go sees. -/
def utf8EncodeCharGo (c : Char) : List UInt8 :=
  let v := c.val
  if v < 0x80 then
    [v.toUInt8]
  else if v < 0x800 then
    [(v >>> 6).toUInt8 ||| 0xC0,
     (v &&& 0x3F).toUInt8 ||| 0x80]
  else if v < 0x10000 then
    [(v >>> 12).toUInt8 ||| 0xE0,
     ((v >>> 6) &&& 0x3F).toUInt8 ||| 0x80,
     (v &&& 0x3F).toUInt8 ||| 0x80]
  else
    [(v >>> 18).toUInt8 ||| 0xF0,
     ((v >>> 12) &&& 0x3F).toUInt8 ||| 0x80,
     ((v >>> 6) &&& 0x3F).toUInt8 ||| 0x80,
     (v &&& 0x3F).toUInt8 ||| 0x80]

/-- The UTF-8 bytes of a Go string literal. -/
def goBytes (s : String) : List UInt8 :=
  (s.data.map utf8EncodeCharGo).flatten

/-- `const telegramMaxMessageSize = 4000`. -/
def telegramMaxMessageSize : Nat := 4000

/-- The truncation-warning suffix appended by `trimTelegramText`. -/
def warnSuffix : List UInt8 :=
  goBytes "\n\n⚠️ Message trimmed because it was too long."

/-- `trimTelegramText` (edit_or_reply.go), over the bytes of the Go string. -/
def trimTelegramText (text : List UInt8) : List UInt8 :=
  if text.length ≤ telegramMaxMessageSize then text
  else text.take (telegramMaxMessageSize - 50) ++ warnSuffix

theorem warnSuffix_length : warnSuffix.length = 49 := by decide

/-! ## Claim theorems: C7, C10 -/

/-- Claim C7: for every track, the cache key is the track ID suffixed with
`"_video"` when the track was requested as video and `"_audio"` otherwise,
and for a common track ID the video and audio cache keys are distinct
strings. -/
theorem cacheKey_suffix_and_distinct (t t1 t2 : Track)
    (hid : t1.ID = t2.ID) (h1 : t1.Video = true) (h2 : t2.Video = false) :
    (t.Video = true → cacheKey t = t.ID ++ "_video") ∧
    (t.Video = false → cacheKey t = t.ID ++ "_audio") ∧
    cacheKey t1 ≠ cacheKey t2 := by
  refine ⟨fun h => by simp [cacheKey, h], fun h => by simp [cacheKey, h], ?_⟩
  have e1 : cacheKey t1 = t2.ID ++ "_video" := by simp [cacheKey, h1, hid]
  have e2 : cacheKey t2 = t2.ID ++ "_audio" := by simp [cacheKey, h2]
  rw [e1, e2]
  intro h
  have h3 := congrArg String.data h
  rw [String.data_append, String.data_append] at h3
  have h4 := List.append_cancel_left h3
  simp at h4

/-- Witness for C7 at a concrete track ID. -/
theorem cacheKey_suffix_and_distinct_w :
    cacheKey ⟨"abc", "", 0, "", "", PlatformYtDlp, true, false⟩ ≠
      cacheKey ⟨"abc", "", 0, "", "", PlatformYtDlp, false, false⟩ :=
  (cacheKey_suffix_and_distinct
    ⟨"abc", "", 0, "", "", PlatformYtDlp, true, false⟩
    ⟨"abc", "", 0, "", "", PlatformYtDlp, true, false⟩
    ⟨"abc", "", 0, "", "", PlatformYtDlp, false, false⟩
    rfl rfl rfl).2.2

/-- Claim C10: `trimTelegramText` always returns at most 4000 bytes, returns
the input unchanged exactly when the input is at most 4000 bytes long, and
otherwise returns the first 3950 bytes of the input followed by the fixed
truncation-warning suffix. -/
theorem trimTelegramText_bounds (text : List UInt8) :
    (trimTelegramText text).length ≤ telegramMaxMessageSize ∧
    (trimTelegramText text = text ↔ text.length ≤ telegramMaxMessageSize) ∧
    (telegramMaxMessageSize < text.length →
      trimTelegramText text = text.take 3950 ++ warnSuffix) := by
  by_cases h : text.length ≤ telegramMaxMessageSize
  · have hres : trimTelegramText text = text := by simp [trimTelegramText, h]
    exact ⟨by rw [hres]; exact h, by simp [hres, h],
      fun hlt => absurd h (not_le.mpr hlt)⟩
  · have hres : trimTelegramText text = text.take 3950 ++ warnSuffix := by
      unfold trimTelegramText
      rw [if_neg h]
      norm_num [telegramMaxMessageSize]
    have hlen : (text.take 3950 ++ warnSuffix).length = 3999 := by
      have hge : 3950 ≤ text.length := by
        simp [telegramMaxMessageSize] at h
        omega
      simp [List.length_take, warnSuffix_length, Nat.min_eq_left hge]
    refine ⟨?_, ?_, fun _ => hres⟩
    · rw [hres, hlen]
      simp [telegramMaxMessageSize]
    · rw [hres]
      constructor
      · intro heq
        have hl := congrArg List.length heq
        rw [hlen] at hl
        simp [telegramMaxMessageSize] at h
        omega
      · intro hle
        exact absurd hle h

/-- Witness for C10: a 4001-byte input is truncated to its first 3950 bytes
plus the warning suffix. -/
theorem trimTelegramText_bounds_w :
    telegramMaxMessageSize < (List.replicate 4001 (65 : UInt8)).length ∧
    trimTelegramText (List.replicate 4001 (65 : UInt8)) =
      (List.replicate 4001 (65 : UInt8)).take 3950 ++ warnSuffix :=
  ⟨by rw [List.length_replicate]; norm_num [telegramMaxMessageSize],
   (trimTelegramText_bounds (List.replicate 4001 65)).2.2
     (by rw [List.length_replicate]; norm_num [telegramMaxMessageSize])⟩

/-- Claim C9: `IsValid` trims the input and returns `true` exactly when the
trimmed string parses as a URI with a non-empty scheme and a non-empty host;
`"not a url"` is rejected and `"https://example.com/x"` is accepted (with or
without surrounding whitespace).  Totality and absence of effects hold by
construction: `IsValid` is a Lean function into `Bool`. -/
theorem isValid_characterization (s : String) :
    (IsValid s = true ↔
      ∃ u, urlParse (goTrimSpace s) = some u ∧ u.Scheme ≠ "" ∧ u.Host ≠ "") ∧
    IsValid "not a url" = false ∧
    IsValid "https://example.com/x" = true ∧
    IsValid "  https://example.com/x  " = true := by
  refine ⟨?_, by decide, by decide, by decide⟩
  unfold IsValid
  cases h : urlParse (goTrimSpace s) with
  | none => simp
  | some u => simp

/-- Witness for C9 at a concrete string. -/
theorem isValid_characterization_w : IsValid "not a url" = false :=
  (isValid_characterization "").2.1

/-! ## Claim theorems: C2, C6, C8 -/

/-- Claim C2: when the extracted metadata descriptor is flagged live,
`GetTracks` succeeds with exactly one track, and that track carries
`IsLive = true`. -/
theorem getTracks_live_single (env : MetaEnv) (query : String) (video : Bool)
    (info : YtdlpInfo) (h : extractMetadata env query = some info)
    (hl : info.IsLive = true) :
    GetTracks env query video = Except.ok [infoToTrack info video] ∧
    (infoToTrack info video).IsLive = true := by
  constructor
  · unfold GetTracks
    rw [h]
    simp [hl]
  · simp [infoToTrack, hl]

/-- A concrete live descriptor. -/
def wLiveInfo : YtdlpInfo :=
  .mk "liveid" "live show" 0 "thumb" "https://w" "" "" "" true false [] []

/-- Witness for C2 at a concrete live descriptor. -/
theorem getTracks_live_single_w :
    GetTracks ⟨some wLiveInfo⟩ "q" false = Except.ok [infoToTrack wLiveInfo false] ∧
    (infoToTrack wLiveInfo false).IsLive = true :=
  getTracks_live_single ⟨some wLiveInfo⟩ "q" false wLiveInfo rfl rfl

/-- A concrete live playlist entry. -/
def liveEntry : YtdlpInfo :=
  .mk "e" "entry" 0 "" "https://e" "" "" "" true false [] []

/-- A concrete non-live playlist entry. -/
def plainEntry : YtdlpInfo :=
  .mk "p" "plain" 4 "" "https://p" "" "" "" false false [] []

/-- A playlist-shaped descriptor that is itself flagged live. -/
def liveContainer : YtdlpInfo :=
  .mk "c" "container" 0 "" "https://c" "" "" "" true false [liveEntry] []

/-- Claim C6 counterexample: a descriptor whose `Entries` list is non-empty
but which is itself flagged live is converted to a single track for the
container itself; its sole child entry is not mapped, contradicting the
claim's unconditional "maps each child entry / never the container". -/
theorem getTracks_container_live_cex :
    liveContainer.Entries ≠ [] ∧
    GetTracks ⟨some liveContainer⟩ "q" false =
      Except.ok [infoToTrack liveContainer false] ∧
    GetTracks ⟨some liveContainer⟩ "q" false ≠
      Except.ok (liveContainer.Entries.map (fun entry => infoToTrack entry false)) := by
  refine ⟨by simp [liveContainer, YtdlpInfo.Entries], rfl, ?_⟩
  intro h
  rw [show GetTracks ⟨some liveContainer⟩ "q" false =
        Except.ok [infoToTrack liveContainer false] from rfl] at h
  have h2 := Except.ok.inj h
  simp [liveContainer, liveEntry, infoToTrack, YtdlpInfo.Entries,
    YtdlpInfo.ID, YtdlpInfo.Title, YtdlpInfo.Duration, YtdlpInfo.Thumbnail,
    YtdlpInfo.URL, YtdlpInfo.OriginalURL, YtdlpInfo.IsLive] at h2

/-- Claim C6 (amended: restricted to descriptors not themselves flagged
live): a non-live descriptor with a non-empty `Entries` list is mapped
entry-wise — each child entry, live ones included, becomes exactly one
track with the entry's live flag, and no track is produced for the
container itself. -/
theorem getTracks_playlist_entries (env : MetaEnv) (query : String)
    (video : Bool) (info : YtdlpInfo) (h : extractMetadata env query = some info)
    (hl : info.IsLive = false) (he : info.Entries ≠ []) :
    GetTracks env query video =
      Except.ok (info.Entries.map (fun entry => infoToTrack entry video)) ∧
    ∀ entry ∈ info.Entries, (infoToTrack entry video).IsLive = entry.IsLive := by
  constructor
  · unfold GetTracks
    rw [h]
    simp [hl, List.length_pos.mpr he]
  · intro entry _
    simp [infoToTrack]

/-- A non-live playlist container with a live and a non-live entry. -/
def plainContainer : YtdlpInfo :=
  .mk "pc" "playlist" 0 "" "https://pc" "" "" "" false false
    [liveEntry, plainEntry] []

/-- Witness for the amended C6: both entries of a concrete two-entry
playlist are mapped, the live one keeping `IsLive = true`. -/
theorem getTracks_playlist_entries_w :
    GetTracks ⟨some plainContainer⟩ "q" false =
      Except.ok (plainContainer.Entries.map (fun entry => infoToTrack entry false)) ∧
    ∀ entry ∈ plainContainer.Entries,
      (infoToTrack entry false).IsLive = entry.IsLive :=
  getTracks_playlist_entries ⟨some plainContainer⟩ "q" false plainContainer rfl rfl
    (by simp [plainContainer, YtdlpInfo.Entries])

/-- Claim C8: the mapped track's `URL` is the descriptor's original URL when
that field is non-empty and the resolved webpage URL otherwise, and its
`Duration` is the floating-point duration truncated to an integer. -/
theorem infoToTrack_url_duration (info : YtdlpInfo) (video : Bool) :
    (info.OriginalURL ≠ "" → (infoToTrack info video).URL = info.OriginalURL) ∧
    (info.OriginalURL = "" → (infoToTrack info video).URL = info.URL) ∧
    (infoToTrack info video).Duration = goTrunc info.Duration := by
  refine ⟨fun h => by simp [infoToTrack, h], fun h => by simp [infoToTrack, h], rfl⟩

/-- A descriptor with both URL fields set and a fractional duration. -/
def wUrlInfo : YtdlpInfo :=
  .mk "u" "titled" (⟨7, 2, by decide, by decide⟩ : ℚ) "art"
    "https://resolved" "https://original" "" "" false false [] []

/-- Witness for C8: the original URL wins over the resolved one, and the
duration 7/2 truncates to 3. -/
theorem infoToTrack_url_duration_w :
    (infoToTrack wUrlInfo true).URL = "https://original" ∧
    (infoToTrack wUrlInfo true).Duration = 3 :=
  ⟨(infoToTrack_url_duration wUrlInfo true).1 (by decide),
   by rw [(infoToTrack_url_duration wUrlInfo true).2.2]; decide⟩

/-! ## Supporting lemmas on the retrieval model -/

/-- Every event of the candidate loop is a probe. -/
theorem firstValid_events (env : Env) :
    ∀ l : List String, ∀ e ∈ (firstValid env l).2, ∃ u, e = Ev.probe u := by
  intro l
  induction l with
  | nil => simp [firstValid]
  | cons u rest ih =>
    intro e he
    rw [firstValid] at he
    split at he
    · exact ih e he
    · split at he
      · simp at he
        exact ⟨goTrimSpace u, he⟩
      · simp at he
        rcases he with he | he
        · exact ⟨goTrimSpace u, he⟩
        · exact ih e he

/-- The direct-stream resolver's trace is the `-g` invocation followed by
probes only. -/
theorem getDirectStreamURL_trace (env : Env) (track : Track) :
    ∃ tl, (getDirectStreamURL env track).2 = Ev.resolveG :: tl ∧
      ∀ e ∈ tl, ∃ u, e = Ev.probe u := by
  cases hg : env.gOut with
  | none => exact ⟨[], by simp [getDirectStreamURL, hg], by simp⟩
  | some out =>
    by_cases h : goTrimSpace out = ""
    · exact ⟨[], by simp [getDirectStreamURL, hg, h], by simp⟩
    · exact ⟨(firstValid env (goSplitLines (goTrimSpace out))).2,
        by simp [getDirectStreamURL, hg, h], firstValid_events env _⟩

/-- The candidate loop returns exactly the first trimmed `http`-prefixed
line that passes validation, and the no-valid-stream error otherwise. -/
theorem firstValid_eq_find (env : Env) (l : List String) :
    (firstValid env l).1 =
      match ((l.map goTrimSpace).filter
          (fun u => goStartsWith u "http")).find? (validateStreamURL env) with
      | some u => Except.ok u
      | none => Except.error DlErr.noValidStream := by
  induction l with
  | nil => rfl
  | cons u rest ih =>
    by_cases h1 : goStartsWith (goTrimSpace u) "http" = true
    · have hne : ¬(goTrimSpace u = "" || !(goStartsWith (goTrimSpace u) "http")) = true := by
        have h0 : goTrimSpace u ≠ "" := by
          intro h
          rw [h] at h1
          exact absurd h1 (by decide)
        simp [h0, h1]
      by_cases h2 : validateStreamURL env (goTrimSpace u) = true
      · rw [firstValid, if_neg hne, if_pos h2]
        simp [h1, List.find?, h2]
      · rw [firstValid, if_neg hne, if_neg h2]
        simp only [List.map_cons, List.filter_cons, h1, if_true]
        rw [List.find?]
        simp only [h2]
        exact ih
    · have hskip : (goTrimSpace u = "" || !(goStartsWith (goTrimSpace u) "http")) = true := by
        simp [h1]
      rw [firstValid, if_pos hskip]
      simp only [List.map_cons, List.filter_cons, h1]
      simpa using ih

/-! ## Claim theorems: C1, C4 -/

/-- Claim C1: the direct-stream resolution is the first external step of
every `Download`, live or not; and a live track either returns the
direct-stream address or fails with the live-unsupported-for-file error —
its trace contains no download invocation and no cache lookup, so the
Fetch-and-Cache Strategy is never reached. -/
theorem download_direct_first_live (env : Env) (fs : FS) (track : Track) :
    ((Download env fs track).2.2).head? = some Ev.resolveG ∧
    (track.IsLive = true →
      ((∃ u, (Download env fs track).1 = Except.ok u ∧
          (getDirectStreamURL env track).1 = Except.ok u) ∨
        (Download env fs track).1 = Except.error DlErr.liveUnsupportedForFile) ∧
      Ev.downloadInvoke ∉ (Download env fs track).2.2 ∧
      ∀ key, Ev.cacheLookup key ∉ (Download env fs track).2.2) := by
  obtain ⟨tl, htr, hall⟩ := getDirectStreamURL_trace env track
  have hnodl : Ev.downloadInvoke ∉ (getDirectStreamURL env track).2 := by
    rw [htr]
    intro hmem
    rcases List.mem_cons.mp hmem with he | hm
    · exact absurd he (by simp)
    · obtain ⟨u, hu⟩ := hall _ hm
      exact absurd hu (by simp)
  have hnock : ∀ key, Ev.cacheLookup key ∉ (getDirectStreamURL env track).2 := by
    intro key
    rw [htr]
    intro hmem
    rcases List.mem_cons.mp hmem with he | hm
    · exact absurd he (by simp)
    · obtain ⟨u, hu⟩ := hall _ hm
      exact absurd hu (by simp)
  unfold Download
  cases hd : (getDirectStreamURL env track).1 with
  | ok u =>
    refine ⟨by rw [htr]; rfl, fun _ => ⟨Or.inl ⟨u, rfl, rfl⟩, hnodl, hnock⟩⟩
  | error e =>
    by_cases hl : track.IsLive = true
    · rw [if_pos hl]
      exact ⟨by rw [htr]; rfl, fun _ => ⟨Or.inr rfl, hnodl, hnock⟩⟩
    · rw [if_neg hl]
      refine ⟨by rw [htr]; rfl, fun h => absurd h hl⟩

/-- Witness for C1: a live track whose direct resolution fails gets the
live-unsupported error, with no download invocation and no cache lookup. -/
theorem download_direct_first_live_w :
    ((Download ⟨none, fun _ => none, fun _ => false, true, none, []⟩ ⟨[]⟩
        ⟨"id", "t", 0, "", "https://u", PlatformYtDlp, false, true⟩).2.2).head? =
      some Ev.resolveG ∧
    ((∃ u, (Download ⟨none, fun _ => none, fun _ => false, true, none, []⟩ ⟨[]⟩
        ⟨"id", "t", 0, "", "https://u", PlatformYtDlp, false, true⟩).1 = Except.ok u ∧
        (getDirectStreamURL ⟨none, fun _ => none, fun _ => false, true, none, []⟩
          ⟨"id", "t", 0, "", "https://u", PlatformYtDlp, false, true⟩).1 = Except.ok u) ∨
      (Download ⟨none, fun _ => none, fun _ => false, true, none, []⟩ ⟨[]⟩
        ⟨"id", "t", 0, "", "https://u", PlatformYtDlp, false, true⟩).1 =
        Except.error DlErr.liveUnsupportedForFile) ∧
    Ev.downloadInvoke ∉ (Download ⟨none, fun _ => none, fun _ => false, true, none, []⟩ ⟨[]⟩
      ⟨"id", "t", 0, "", "https://u", PlatformYtDlp, false, true⟩).2.2 ∧
    ∀ key, Ev.cacheLookup key ∉
      (Download ⟨none, fun _ => none, fun _ => false, true, none, []⟩ ⟨[]⟩
        ⟨"id", "t", 0, "", "https://u", PlatformYtDlp, false, true⟩).2.2 :=
  ⟨(download_direct_first_live ⟨none, fun _ => none, fun _ => false, true, none, []⟩ ⟨[]⟩
      ⟨"id", "t", 0, "", "https://u", PlatformYtDlp, false, true⟩).1,
   (download_direct_first_live ⟨none, fun _ => none, fun _ => false, true, none, []⟩ ⟨[]⟩
      ⟨"id", "t", 0, "", "https://u", PlatformYtDlp, false, true⟩).2 rfl⟩

/-- Claim C4: on a successful `-g` invocation with non-empty output, the
direct-stream resolver scans the trimmed output lines in order and returns
the first `http`-prefixed candidate whose header-only probe reports a
non-error status (a status code below 400), failing with the
no-valid-stream error when no candidate validates; a probe passes exactly
when it reports a status below 400; and a direct-stream success leaves the
filesystem untouched — the resolver writes nothing to disk. -/
theorem directStream_first_valid (env : Env) (track : Track) (fs : FS)
    (out : String) (hg : env.gOut = some out) (hne : goTrimSpace out ≠ "") :
    ((getDirectStreamURL env track).1 =
      match (((goSplitLines (goTrimSpace out)).map goTrimSpace).filter
          (fun u => goStartsWith u "http")).find? (validateStreamURL env) with
      | some u => Except.ok u
      | none => Except.error DlErr.noValidStream) ∧
    (∀ u, validateStreamURL env u = true ↔
      ∃ c, env.probeStatus u = some c ∧ c < 400) ∧
    (∀ u, (getDirectStreamURL env track).1 = Except.ok u →
      (Download env fs track).2.1 = fs) := by
  refine ⟨?_, ?_, ?_⟩
  · have hred : (getDirectStreamURL env track).1 =
        (firstValid env (goSplitLines (goTrimSpace out))).1 := by
      simp [getDirectStreamURL, hg, hne]
    rw [hred]
    exact firstValid_eq_find env _
  · intro u
    unfold validateStreamURL
    cases h : env.probeStatus u with
    | none => simp
    | some code => simp
  · intro u hu
    unfold Download
    rw [hu]

/-- Witness for C4: of three output lines, the non-`http` line is skipped,
the candidate probing 404 is rejected, and the candidate probing 200 wins. -/
theorem directStream_first_valid_w :
    (getDirectStreamURL
      ⟨some "junk\nhttp://bad\nhttp://good\n",
        fun u => if u = "http://good" then some 200
          else if u = "http://bad" then some 404 else none,
        fun _ => false, true, none, []⟩
      ⟨"id", "t", 0, "", "https://u", PlatformYtDlp, false, false⟩).1 =
      Except.ok "http://good" := by
  have h := (directStream_first_valid
    ⟨some "junk\nhttp://bad\nhttp://good\n",
      fun u => if u = "http://good" then some 200
        else if u = "http://bad" then some 404 else none,
      fun _ => false, true, none, []⟩
    ⟨"id", "t", 0, "", "https://u", PlatformYtDlp, false, false⟩
    ⟨[]⟩ "junk\nhttp://bad\nhttp://good\n" rfl (by decide)).1
  rw [h]
  rfl

/-! ## Supporting lemmas for the cache claims -/

/-- A cache hit that passes validation short-circuits: the artifact path is
returned, the filesystem is unchanged, and no download is invoked. -/
theorem fetchAndCache_hit (env : Env) (fs : FS) (track : Track) (path : String)
    (hfind : checkDownloadedFile fs (cacheKey track) = some path)
    (hval : track.Video = true → isValidVideoFile env path = true) :
    (fetchAndCache env fs track).1 = Except.ok path ∧
    (fetchAndCache env fs track).2.1 = fs ∧
    Ev.downloadInvoke ∉ (fetchAndCache env fs track).2.2 := by
  by_cases hv : track.Video = true
  · have hc : cacheCheck env fs track (cacheKey track) =
        (some path, fs, [Ev.cacheLookup (cacheKey track), Ev.probeFile path]) := by
      simp [cacheCheck, hfind, hv, hval hv]
    unfold fetchAndCache
    rw [hc]
    exact ⟨rfl, rfl, by simp⟩
  · have hc : cacheCheck env fs track (cacheKey track) =
        (some path, fs, [Ev.cacheLookup (cacheKey track)]) := by
      simp [cacheCheck, hfind, hv]
    unfold fetchAndCache
    rw [hc]
    exact ⟨rfl, rfl, by simp⟩

/-- A hit reported by the cache block comes from the lookup, and a hit
leaves the filesystem unchanged. -/
theorem cacheCheck_some (env : Env) (fs : FS) (track : Track) (key : String)
    (q : String) (h : (cacheCheck env fs track key).1 = some q) :
    checkDownloadedFile fs key = some q ∧
    (cacheCheck env fs track key).2.1 = fs := by
  cases hfind : checkDownloadedFile fs key with
  | none =>
    rw [show cacheCheck env fs track key = (none, fs, [Ev.cacheLookup key]) from by
      simp [cacheCheck, hfind]] at h
    exact absurd h (by simp)
  | some p =>
    by_cases hv : track.Video = true
    · by_cases hval : isValidVideoFile env p = true
      · have hc : cacheCheck env fs track key =
            (some p, fs, [Ev.cacheLookup key, Ev.probeFile p]) := by
          simp [cacheCheck, hfind, hv, hval]
        rw [hc] at h
        simp at h
        exact ⟨congrArg some h, by rw [hc]⟩
      · have hc : cacheCheck env fs track key =
            (none, ⟨fs.files.erase p⟩,
              [Ev.cacheLookup key, Ev.probeFile p, Ev.remove p]) := by
          simp [cacheCheck, hfind, hv, hval]
        rw [hc] at h
        exact absurd h (by simp)
    · have hc : cacheCheck env fs track key = (some p, fs, [Ev.cacheLookup key]) := by
        simp [cacheCheck, hfind, hv]
      rw [hc] at h
      simp at h
      exact ⟨congrArg some h, by rw [hc]⟩

/-- A successful lookup returns a file that is present and matches the
cache-key glob. -/
theorem checkDownloadedFile_some_shape (fs : FS) (key : String) (q : String)
    (h : checkDownloadedFile fs key = some q) :
    goStartsWith q (cacheGlob key) = true ∧ q ∈ fs.files := by
  unfold checkDownloadedFile at h
  have h1 := List.find?_some h
  exact ⟨h1, List.mem_of_find?_eq_some h⟩

/-- A present file matching the cache-key glob makes the lookup succeed. -/
theorem checkDownloadedFile_isSome (fs : FS) (key : String) (p : String)
    (hmem : p ∈ fs.files) (hpred : goStartsWith p (cacheGlob key) = true) :
    ∃ q, checkDownloadedFile fs key = some q := by
  have h : (fs.files.find? (fun r => goStartsWith r (cacheGlob key))).isSome :=
    List.find?_isSome.mpr ⟨p, hmem, hpred⟩
  obtain ⟨q, hq⟩ := Option.isSome_iff_exists.mp h
  exact ⟨q, by unfold checkDownloadedFile; exact hq⟩

/-- Reduction of `fetchAndCache` on a cache-block hit. -/
theorem fetchAndCache_eq_hit (env : Env) (fs : FS) (track : Track) (path : String)
    (hc : (cacheCheck env fs track (cacheKey track)).1 = some path) :
    fetchAndCache env fs track =
      (Except.ok path, (cacheCheck env fs track (cacheKey track)).2.1,
        (cacheCheck env fs track (cacheKey track)).2.2) := by
  unfold fetchAndCache
  rw [hc]

/-- Reduction of `fetchAndCache` on a cache-block miss followed by a
download invocation with non-empty reported path: the outcome is decided by
the on-disk check of the reported path. -/
theorem fetchAndCache_eq_dl (env : Env) (fs : FS) (track : Track) (out : String)
    (hc : (cacheCheck env fs track (cacheKey track)).1 = none)
    (hd : ensureDownloadsDir env = true)
    (ho : env.downloadOut = some out)
    (ht : goTrimSpace out ≠ "") :
    fetchAndCache env fs track =
      if ((cacheCheck env fs track (cacheKey track)).2.1.files ++
          env.downloadWrites).contains (goTrimSpace out) = true then
        (Except.ok (goTrimSpace out),
          ⟨(cacheCheck env fs track (cacheKey track)).2.1.files ++ env.downloadWrites⟩,
          (cacheCheck env fs track (cacheKey track)).2.2 ++
            [Ev.mkdirDownloads, Ev.downloadInvoke, Ev.statCheck (goTrimSpace out)])
      else
        (Except.error (DlErr.artifactMissing (goTrimSpace out)),
          ⟨(cacheCheck env fs track (cacheKey track)).2.1.files ++ env.downloadWrites⟩,
          (cacheCheck env fs track (cacheKey track)).2.2 ++
            [Ev.mkdirDownloads, Ev.downloadInvoke, Ev.statCheck (goTrimSpace out)]) := by
  unfold fetchAndCache
  simp only [hc, ho, hd]
  rw [if_neg (by simp), if_neg ht]

/-- Reduction of `fetchAndCache` on a miss with empty reported path. -/
theorem fetchAndCache_eq_empty (env : Env) (fs : FS) (track : Track) (out : String)
    (hc : (cacheCheck env fs track (cacheKey track)).1 = none)
    (hd : ensureDownloadsDir env = true)
    (ho : env.downloadOut = some out)
    (ht : goTrimSpace out = "") :
    fetchAndCache env fs track =
      (Except.error DlErr.emptyPath,
        ⟨(cacheCheck env fs track (cacheKey track)).2.1.files ++ env.downloadWrites⟩,
        (cacheCheck env fs track (cacheKey track)).2.2 ++
          [Ev.mkdirDownloads, Ev.downloadInvoke]) := by
  unfold fetchAndCache
  simp only [hc, ho, hd]
  rw [if_neg (by simp), if_pos ht]

/-- Reduction of `fetchAndCache` on a miss with failed directory creation. -/
theorem fetchAndCache_eq_dirfail (env : Env) (fs : FS) (track : Track)
    (hc : (cacheCheck env fs track (cacheKey track)).1 = none)
    (hd : ensureDownloadsDir env = false) :
    fetchAndCache env fs track =
      (Except.error DlErr.ensureDirFailed,
        (cacheCheck env fs track (cacheKey track)).2.1,
        (cacheCheck env fs track (cacheKey track)).2.2 ++ [Ev.mkdirDownloads]) := by
  unfold fetchAndCache
  simp only [hc]
  rw [if_pos hd]

/-- Reduction of `fetchAndCache` on a miss with failed download process. -/
theorem fetchAndCache_eq_dlfail (env : Env) (fs : FS) (track : Track)
    (hc : (cacheCheck env fs track (cacheKey track)).1 = none)
    (hd : ensureDownloadsDir env = true)
    (ho : env.downloadOut = none) :
    fetchAndCache env fs track =
      (Except.error DlErr.downloadFailed,
        (cacheCheck env fs track (cacheKey track)).2.1,
        (cacheCheck env fs track (cacheKey track)).2.2 ++
          [Ev.mkdirDownloads, Ev.downloadInvoke]) := by
  unfold fetchAndCache
  simp only [hc, ho, hd]
  rw [if_neg (by simp)]

/-- Shape of a successful `fetchAndCache`: either a cache hit (filesystem
kept, path from the lookup), or a cache miss followed by a download whose
verified reported path is present in the updated filesystem. -/
theorem fetchAndCache_ok_shape (env : Env) (fs : FS) (track : Track)
    (path : String) (hok : (fetchAndCache env fs track).1 = Except.ok path) :
    ((cacheCheck env fs track (cacheKey track)).1 = some path ∧
      (fetchAndCache env fs track).2.1 = fs) ∨
    ((fetchAndCache env fs track).2.1 =
        ⟨(cacheCheck env fs track (cacheKey track)).2.1.files ++ env.downloadWrites⟩ ∧
      ∃ out, env.downloadOut = some out ∧ path = goTrimSpace out ∧
        ((cacheCheck env fs track (cacheKey track)).2.1.files ++
          env.downloadWrites).contains path = true) := by
  cases hc : (cacheCheck env fs track (cacheKey track)).1 with
  | some p =>
    rw [fetchAndCache_eq_hit env fs track p hc] at hok ⊢
    simp at hok
    exact Or.inl ⟨congrArg some hok,
      (cacheCheck_some env fs track (cacheKey track) p hc).2⟩
  | none =>
    by_cases hd : ensureDownloadsDir env = true
    · cases ho : env.downloadOut with
      | none =>
        rw [fetchAndCache_eq_dlfail env fs track hc hd ho] at hok
        exact absurd hok (by simp)
      | some out =>
        by_cases ht : goTrimSpace out = ""
        · rw [fetchAndCache_eq_empty env fs track out hc hd ho ht] at hok
          exact absurd hok (by simp)
        · rw [fetchAndCache_eq_dl env fs track out hc hd ho ht] at hok ⊢
          by_cases hcont : ((cacheCheck env fs track (cacheKey track)).2.1.files ++
              env.downloadWrites).contains (goTrimSpace out) = true
          · rw [if_pos hcont] at hok ⊢
            simp at hok
            exact Or.inr ⟨rfl, out, rfl, hok.symm, by rw [hok] at hcont; exact hcont⟩
          · rw [if_neg hcont] at hok
            exact absurd hok (by simp)
    · rw [fetchAndCache_eq_dirfail env fs track hc (by simpa using hd)] at hok
      exact absurd hok (by simp)

/-! ## Claim theorems: C3, C5 -/

/-- Claim C3: a cached artifact passing validation is returned without any
download-mode resolver invocation; and two sequential `fetchAndCache` calls
for the same track, with no intervening eviction, invoke the download-mode
resolver at most once — when the first call succeeds, the second call is a
cache hit and performs no download, assuming the resolver honours the
output-path template (a reported path matching the cache-key glob) and that
an artifact it produced for a video request probes as valid. -/
theorem fetchAndCache_hit_idempotent (env1 env2 : Env) (fs : FS) (track : Track) :
    (∀ path, checkDownloadedFile fs (cacheKey track) = some path →
      (track.Video = true → isValidVideoFile env1 path = true) →
      (fetchAndCache env1 fs track).1 = Except.ok path ∧
      Ev.downloadInvoke ∉ (fetchAndCache env1 fs track).2.2) ∧
    (∀ path, (fetchAndCache env1 fs track).1 = Except.ok path →
      (∀ out, env1.downloadOut = some out →
        goStartsWith (goTrimSpace out) (cacheGlob (cacheKey track)) = true) →
      (track.Video = true →
        ∀ q, goStartsWith q (cacheGlob (cacheKey track)) = true →
          isValidVideoFile env2 q = true) →
      (∃ q, (fetchAndCache env2 (fetchAndCache env1 fs track).2.1 track).1 =
        Except.ok q) ∧
      Ev.downloadInvoke ∉
        (fetchAndCache env2 (fetchAndCache env1 fs track).2.1 track).2.2) := by
  constructor
  · intro path hfind hval
    obtain ⟨h1, _, h3⟩ := fetchAndCache_hit env1 fs track path hfind hval
    exact ⟨h1, h3⟩
  · intro path hok htpl hval2
    rcases fetchAndCache_ok_shape env1 fs track path hok with
      ⟨hc, hfs⟩ | ⟨hfs, out, ho, hpath, hcont⟩
    · obtain ⟨hfind, _⟩ := cacheCheck_some env1 fs track (cacheKey track) path hc
      obtain ⟨hpred, _⟩ := checkDownloadedFile_some_shape fs (cacheKey track) path hfind
      rw [hfs]
      obtain ⟨h1, _, h3⟩ := fetchAndCache_hit env2 fs track path hfind
        (fun hv => hval2 hv path hpred)
      exact ⟨⟨path, h1⟩, h3⟩
    · rw [hfs]
      have hmem : path ∈ (cacheCheck env1 fs track (cacheKey track)).2.1.files ++
          env1.downloadWrites := by
        simpa using hcont
      have hpred : goStartsWith path (cacheGlob (cacheKey track)) = true := by
        rw [hpath]
        exact htpl out ho
      obtain ⟨q, hq⟩ := checkDownloadedFile_isSome
        ⟨(cacheCheck env1 fs track (cacheKey track)).2.1.files ++ env1.downloadWrites⟩
        (cacheKey track) path hmem hpred
      obtain ⟨hqpred, _⟩ := checkDownloadedFile_some_shape _ _ q hq
      obtain ⟨h1, _, h3⟩ := fetchAndCache_hit env2
        ⟨(cacheCheck env1 fs track (cacheKey track)).2.1.files ++ env1.downloadWrites⟩
        track q hq (fun hv => hval2 hv q hqpred)
      exact ⟨⟨q, h1⟩, h3⟩

/-- The at-most-once witness scenario: a pre-populated cache for an audio
track and a stub resolver that fails if ever invoked. -/
def wStubEnv : Env :=
  ⟨none, fun _ => none, fun _ => false, false, none, []⟩

/-- The audio track of the C3 witness. -/
def wAudioTrack : Track :=
  ⟨"abc", "t", 0, "", "https://u", PlatformYtDlp, false, false⟩

/-- The pre-populated downloads directory of the C3 witness. -/
def wCacheFS : FS :=
  ⟨["downloads/abc_audio.opus"]⟩

/-- Witness for C3: with a valid pre-populated cache entry and a stub
resolver that errors if invoked, both sequential calls hit the cache and no
download is ever performed. -/
theorem fetchAndCache_hit_idempotent_w :
    (fetchAndCache wStubEnv wCacheFS wAudioTrack).1 =
      Except.ok "downloads/abc_audio.opus" ∧
    Ev.downloadInvoke ∉ (fetchAndCache wStubEnv wCacheFS wAudioTrack).2.2 ∧
    (∃ q, (fetchAndCache wStubEnv
      (fetchAndCache wStubEnv wCacheFS wAudioTrack).2.1 wAudioTrack).1 =
        Except.ok q) ∧
    Ev.downloadInvoke ∉ (fetchAndCache wStubEnv
      (fetchAndCache wStubEnv wCacheFS wAudioTrack).2.1 wAudioTrack).2.2 := by
  have h := fetchAndCache_hit_idempotent wStubEnv wStubEnv wCacheFS wAudioTrack
  have h1 := h.1 "downloads/abc_audio.opus" (by decide)
    (fun hv => absurd hv (by decide))
  have h2 := h.2 "downloads/abc_audio.opus" h1.1
    (fun out hout => absurd hout (by simp [wStubEnv]))
    (fun hv => absurd hv (by decide))
  exact ⟨h1.1, h1.2, h2.1, h2.2⟩

/-- Claim C5: after a download-mode invocation the resolver reports as
successful, the operation succeeds only when the reported (trimmed) path is
non-empty and a file exists at that path; an empty reported path or a
missing file yields a typed failure (`emptyPath` / `artifactMissing`, the
spec's ArtifactMissing kinds), never a success. -/
theorem fetchAndCache_verifies_artifact (env : Env) (fs : FS) (track : Track)
    (out : String)
    (hmiss : checkDownloadedFile fs (cacheKey track) = none)
    (hdir : ensureDownloadsDir env = true)
    (hout : env.downloadOut = some out) :
    (∀ path, (fetchAndCache env fs track).1 = Except.ok path →
      path = goTrimSpace out ∧ path ≠ "" ∧
      (fs.files ++ env.downloadWrites).contains path = true) ∧
    (goTrimSpace out = "" →
      (fetchAndCache env fs track).1 = Except.error DlErr.emptyPath) ∧
    (goTrimSpace out ≠ "" →
      (fs.files ++ env.downloadWrites).contains (goTrimSpace out) = false →
      (fetchAndCache env fs track).1 =
        Except.error (DlErr.artifactMissing (goTrimSpace out))) := by
  have hc : cacheCheck env fs track (cacheKey track) =
      (none, fs, [Ev.cacheLookup (cacheKey track)]) := by
    simp [cacheCheck, hmiss]
  have hc1 : (cacheCheck env fs track (cacheKey track)).1 = none := by rw [hc]
  have hcfs : (cacheCheck env fs track (cacheKey track)).2.1 = fs := by rw [hc]
  refine ⟨?_, ?_, ?_⟩
  · intro path hok
    rcases fetchAndCache_ok_shape env fs track path hok with
      ⟨hsome, _⟩ | ⟨_, out2, ho2, hpath, hcont⟩
    · rw [hc1] at hsome
      exact absurd hsome (by simp)
    · have hout2 : out2 = out := by
        rw [hout] at ho2
        exact (Option.some.inj ho2).symm
      subst hout2
      refine ⟨hpath, ?_, by rw [← hcfs]; rw [hpath] at hcont ⊢; exact hcont⟩
      intro hempty
      rw [hempty] at hpath
      rw [fetchAndCache_eq_empty env fs track out2 hc1 hdir hout hpath.symm] at hok
      exact absurd hok (by simp)
  · intro ht
    rw [fetchAndCache_eq_empty env fs track out hc1 hdir hout ht]
  · intro ht hcont
    rw [fetchAndCache_eq_dl env fs track out hc1 hdir hout ht]
    rw [if_neg (by rw [hcfs, hcont]; exact Bool.false_ne_true)]

/-- The C5 witness environment: the resolver claims success and prints a
path, but writes no file. -/
def wGhostEnv : Env :=
  ⟨none, fun _ => none, fun _ => false, true,
    some "downloads/abc_audio.opus\n", []⟩

/-- Witness for C5: the phantom reported path yields `artifactMissing`. -/
theorem fetchAndCache_verifies_artifact_w :
    (fetchAndCache wGhostEnv ⟨[]⟩ wAudioTrack).1 =
      Except.error (DlErr.artifactMissing
        (goTrimSpace "downloads/abc_audio.opus\n")) :=
  (fetchAndCache_verifies_artifact wGhostEnv ⟨[]⟩ wAudioTrack
    "downloads/abc_audio.opus\n" (by decide) rfl rfl).2.2
    (by decide) (by decide)

end Yukki
